import Mathlib

/-!
Verification of `Log_Parser.py`: a shallow embedding of the flow-log
tagging pipeline (lookup-table loader, protocol resolver, flow-log
processor, report writer, driver) together with theorems about it.

Files are modelled as `Option (List String)` — `none` for a missing file,
`some lines` for its list of lines.  Python exceptions are modelled by the
`PyErr` type and `Except`.  String primitives (`str.split`, `str.strip`,
`str.lower`, `int(...)`, comma splitting for `csv.reader`) are embedded as
structurally recursive functions over the character list so that they
evaluate by kernel reduction; they model the ASCII behaviour of their
Python counterparts.
-/

/-- Python exception kinds that the program can raise or catch:
`FileNotFoundError`, `ValueError`, `OSError` for I/O, and any other
`Exception`. -/
inductive PyErr where
  | fileNotFound
  | valueError
  | ioError
  | other
deriving DecidableEq, Repr

instance {ε α : Type} [DecidableEq ε] [DecidableEq α] : DecidableEq (Except ε α) :=
  fun x y =>
    match x, y with
    | .ok a, .ok b =>
      if h : a = b then isTrue (by rw [h])
      else isFalse (by intro hc; cases hc; exact h rfl)
    | .error a, .error b =>
      if h : a = b then isTrue (by rw [h])
      else isFalse (by intro hc; cases hc; exact h rfl)
    | .ok a, .error b => isFalse (by intro hc; cases hc)
    | .error a, .ok b => isFalse (by intro hc; cases hc)

/-- Characters treated as whitespace by `str.split()` / `str.strip()`
(ASCII model). -/
def pyWs (c : Char) : Bool :=
  c = ' ' || c = '\t' || c = '\n' || c = '\r'

/-- Helper for `pySplit`: walk the characters, `acc` holds the current
field reversed. -/
def splitWsAux : List Char → List Char → List String
  | [], acc => if acc = [] then [] else [String.mk acc.reverse]
  | c :: cs, acc =>
    if pyWs c then
      if acc = [] then splitWsAux cs []
      else String.mk acc.reverse :: splitWsAux cs []
    else splitWsAux cs (c :: acc)

/-- `line.split()` in Python: split on runs of whitespace, no empty
fields. -/
def pySplit (s : String) : List String :=
  splitWsAux s.toList []

/-- Drop leading whitespace from a character list. -/
def dropWs : List Char → List Char
  | [] => []
  | c :: cs => if pyWs c then dropWs cs else c :: cs

/-- `s.strip()` in Python: remove leading and trailing whitespace. -/
def pyStrip (s : String) : String :=
  String.mk ((dropWs ((dropWs s.toList).reverse)).reverse)

/-- `s.lower()` in Python (ASCII model). -/
def pyLower (s : String) : String :=
  String.mk (s.toList.map Char.toLower)

/-- Helper for `csvRow`: split a character list on commas; `acc` holds the
current column reversed. -/
def splitCommaAux : List Char → List Char → List String
  | [], acc => [String.mk acc.reverse]
  | c :: cs, acc =>
    if c = ',' then String.mk acc.reverse :: splitCommaAux cs []
    else splitCommaAux cs (c :: acc)

/-- One row produced by `csv.reader` from one line: the empty line yields
the empty row `[]`, otherwise the line is split on commas (the lookup
files in play use no quoting). -/
def csvRow (line : String) : List String :=
  if line = "" then [] else splitCommaAux line.toList []

/-- Digit-run part of Python `int(...)`: after the first digit, digits may
be separated by single underscores. `acc` is the value so far. -/
def pyIntDigits : List Char → Nat → Option Nat
  | [], acc => some acc
  | '_' :: c :: cs, acc =>
    if c.isDigit then pyIntDigits cs (acc * 10 + (c.toNat - 48)) else none
  | ['_'], _ => none
  | c :: cs, acc =>
    if c.isDigit then pyIntDigits cs (acc * 10 + (c.toNat - 48)) else none

/-- Unsigned part of Python `int(...)`: at least one leading digit. -/
def pyIntNat : List Char → Option Nat
  | [] => none
  | c :: cs => if c.isDigit then pyIntDigits cs (c.toNat - 48) else none

/-- Python `int(s)`: strip whitespace, optional sign, then digits (with
single underscores allowed between digits); `none` models `ValueError`. -/
def pyInt (s : String) : Option Int :=
  match (pyStrip s).toList with
  | '+' :: cs => (pyIntNat cs).map Int.ofNat
  | '-' :: cs => (pyIntNat cs).map (fun n => -(n : Int))
  | cs => (pyIntNat cs).map Int.ofNat

/-- The `IPPROTO_*` integer constants of the `socket` module on the host
(CPython on Linux), in module order: the pairs `get_protocol_name`
iterates over after its `startswith('IPPROTO_')` filter. -/
def IPPROTO_TABLE : List (String × Int) :=
  [("IPPROTO_IP", 0), ("IPPROTO_HOPOPTS", 0), ("IPPROTO_ICMP", 1),
   ("IPPROTO_IGMP", 2), ("IPPROTO_IPIP", 4), ("IPPROTO_TCP", 6),
   ("IPPROTO_EGP", 8), ("IPPROTO_PUP", 12), ("IPPROTO_UDP", 17),
   ("IPPROTO_IDP", 22), ("IPPROTO_TP", 29), ("IPPROTO_IPV6", 41),
   ("IPPROTO_ROUTING", 43), ("IPPROTO_FRAGMENT", 44), ("IPPROTO_RSVP", 46),
   ("IPPROTO_GRE", 47), ("IPPROTO_ESP", 50), ("IPPROTO_AH", 51),
   ("IPPROTO_ICMPV6", 58), ("IPPROTO_NONE", 59), ("IPPROTO_DSTOPTS", 60),
   ("IPPROTO_PIM", 103), ("IPPROTO_SCTP", 132), ("IPPROTO_MH", 135),
   ("IPPROTO_UDPLITE", 136), ("IPPROTO_RAW", 255), ("IPPROTO_MPTCP", 262)]

/-- `name.lower().split('_')[-1]`: the part of the (lowered) name after
the last underscore. `acc` holds the current segment reversed. -/
def lastSegAux : List Char → List Char → String
  | [], acc => String.mk acc.reverse
  | c :: cs, acc => if c = '_' then lastSegAux cs [] else lastSegAux cs (c :: acc)

/-- The loop of `get_protocol_name`: first table entry whose number equals
the parsed protocol number gives `name.lower().split('_')[-1]`; no entry
gives `none` — the Python function then falls off its end and returns
`None`. -/
def protoLookup (n : Int) : List (String × Int) → Option String
  | [] => none
  | (name, num) :: rest =>
    if num = n then some (lastSegAux (pyLower name).toList []) else protoLookup n rest

/-- `get_protocol_name(protocol_number)`: `some s` models returning the
string `s`; `none` models the implicit `return None` reached when the
number parses but matches no `IPPROTO_*` constant.  A `ValueError` from
`int(...)` is caught and yields `"unknown"`. -/
def get_protocol_name (protocol_number : String) : Option String :=
  match pyInt protocol_number with
  | none => some "unknown"
  | some n => protoLookup n IPPROTO_TABLE

/-- The lookup table: a Python dict keyed by `(dstport, protocol)`, valued
by the tag, modelled as an association list in insertion order with
distinct keys. -/
abbrev LookupTable := List ((String × String) × String)

/-- Dict read: first (and only) binding of the key, if any. -/
def assocFind : LookupTable → (String × String) → Option String
  | [], _ => none
  | (k', v) :: rest, k => if k' = k then some v else assocFind rest k

/-- Dict write `d[k] = v`: overwrite in place or append. -/
def dinsert (k : String × String) (v : String) : LookupTable → LookupTable
  | [] => [(k, v)]
  | (k', v') :: rest =>
    if k' = k then (k, v) :: rest else (k', v') :: dinsert k v rest

/-- The row filter of `load_lookup_table`:
`not row or len(row) < 3 or all(not item.strip() for item in row)`. -/
def rowSkipB (line : String) : Bool :=
  csvRow line == [] || (csvRow line).length < 3
    || (csvRow line).all (fun s => pyStrip s == "")

/-- Key built from an accepted row: `(row[0].strip(), row[1].strip().lower())`. -/
def rowKey (line : String) : String × String :=
  (pyStrip ((csvRow line).getD 0 ""), pyLower (pyStrip ((csvRow line).getD 1 "")))

/-- Tag of an accepted row: `row[2].strip()`. -/
def rowTag (line : String) : String :=
  pyStrip ((csvRow line).getD 2 "")

/-- Body of the row loop of `load_lookup_table`. -/
def loadRow (m : LookupTable) (line : String) : LookupTable :=
  if rowSkipB line then m else dinsert (rowKey line) (rowTag line) m

/-- `load_lookup_table(lookup_file)`: `FileNotFoundError` if the file does
not exist; `ValueError` if `next(reader, None)` yields `None` (no lines)
or an empty header row; otherwise fold the row loop over the data rows. -/
def load_lookup_table (c : Option (List String)) : Except PyErr LookupTable :=
  match c with
  | none => .error .fileNotFound
  | some [] => .error .valueError
  | some (hdr :: rows) =>
    if csvRow hdr = [] then .error .valueError
    else .ok (rows.foldl loadRow [])

/-- The two count dicts built by `process_flow_logs`, each a
`defaultdict(int)` modelled as an association list in insertion order.
The protocol component of a port/protocol key is `Option String` because
`get_protocol_name` can return `None`. -/
structure Counts where
  tag_counts : List (String × Nat)
  port_protocol_counts : List ((String × Option String) × Nat)
deriving DecidableEq, Repr

/-- `d[k] += 1` on a `defaultdict(int)` association list. -/
def bump {α : Type} [DecidableEq α] (k : α) : List (α × Nat) → List (α × Nat)
  | [] => [(k, 1)]
  | (k', v) :: rest =>
    if k' = k then (k', v + 1) :: rest else (k', v) :: bump k rest

/-- Current count of a key in a `defaultdict(int)` association list. -/
def getCount {α : Type} [DecidableEq α] (m : List (α × Nat)) (k : α) : Nat :=
  match m with
  | [] => 0
  | (k', v) :: rest => if k' = k then v else getCount rest k

/-- `lookup_table.get((dstport, protocol_name), ...)` where the protocol
name may be the `None` returned by `get_protocol_name`; `None` matches no
string key of the table. -/
def lookupGet (lt : LookupTable) : String × Option String → Option String
  | (_, none) => none
  | (p, some pn) => assocFind lt (p, pn)

/-- `(dstport, protocol_name)` of a line: fields 6 and 7 of the
whitespace split, the protocol number resolved by `get_protocol_name`. -/
def lineKey (line : String) : String × Option String :=
  ((pySplit line).getD 6 "", get_protocol_name ((pySplit line).getD 7 ""))

/-- Tag of a line: table entry for its key, defaulting to `"Untagged"`. -/
def lineTag (lt : LookupTable) (line : String) : String :=
  (lookupGet lt (lineKey line)).getD "Untagged"

/-- Body of the line loop of `process_flow_logs`: fewer than 14 fields is
skipped; exactly 14 fields unpack and both dicts are bumped; more than 14
fields make the 14-variable unpacking raise `ValueError`. -/
def processLine (lt : LookupTable) (st : Counts) (line : String) :
    Except PyErr Counts :=
  if (pySplit line).length < 14 then .ok st
  else if (pySplit line).length = 14 then
    .ok ⟨bump (lineTag lt line) st.tag_counts,
         bump (lineKey line) st.port_protocol_counts⟩
  else .error .valueError

/-- `process_flow_logs(flow_log_file, lookup_table)`: `FileNotFoundError`
if the file does not exist, otherwise the line loop over the file. -/
def process_flow_logs (c : Option (List String)) (lt : LookupTable) :
    Except PyErr Counts :=
  match c with
  | none => .error .fileNotFound
  | some lines => lines.foldlM (processLine lt) ⟨[], []⟩

/-- Order in which `sorted(tag_counts.items(), key=lambda x: x[1])` sorts:
by count. -/
def tagLe (a b : String × Nat) : Prop := a.2 ≤ b.2

instance : DecidableRel tagLe := fun a b => inferInstanceAs (Decidable (a.2 ≤ b.2))

instance : IsTotal (String × Nat) tagLe := ⟨fun a b => Nat.le_total a.2 b.2⟩

instance : IsTrans (String × Nat) tagLe := ⟨fun _x _y _z h h2 => Nat.le_trans h h2⟩

/-- The integer sort key `int(x[0][0])` of a port/protocol item, defaulted
where `int` would raise (the default is only reached on inputs where
`write_output` has already failed). -/
def ppIntv (e : (String × Option String) × Nat) : Int :=
  (pyInt e.1.1).getD 0

/-- Order in which `sorted(..., key=lambda x: (x[1], int(x[0][0])))`
sorts: lexicographically by count, then numeric port. -/
def ppLe (a b : (String × Option String) × Nat) : Prop :=
  a.2 < b.2 ∨ (a.2 = b.2 ∧ ppIntv a ≤ ppIntv b)

instance : DecidableRel ppLe :=
  fun a b =>
    inferInstanceAs (Decidable (a.2 < b.2 ∨ (a.2 = b.2 ∧ ppIntv a ≤ ppIntv b)))

instance : IsTotal ((String × Option String) × Nat) ppLe := by
  constructor
  intro a b
  rcases Nat.lt_trichotomy a.2 b.2 with h | h | h
  · exact Or.inl (Or.inl h)
  · rcases Int.le_total (ppIntv a) (ppIntv b) with h2 | h2
    · exact Or.inl (Or.inr ⟨h, h2⟩)
    · exact Or.inr (Or.inr ⟨h.symm, h2⟩)
  · exact Or.inr (Or.inl h)

instance : IsTrans ((String × Option String) × Nat) ppLe := by
  constructor
  intro a b c hab hbc
  rcases hab with h | ⟨he, hi⟩
  · rcases hbc with h2 | ⟨he2, _⟩
    · exact Or.inl (Nat.lt_trans h h2)
    · exact Or.inl (he2 ▸ h)
  · rcases hbc with h2 | ⟨he2, hi2⟩
    · exact Or.inl (he ▸ h2)
    · exact Or.inr ⟨he.trans he2, Int.le_trans hi hi2⟩

/-- `sorted(tag_counts.items(), key=lambda x: x[1])` (Python `sorted` is
stable; so is `insertionSort`). -/
def sorted_counts (tc : List (String × Nat)) : List (String × Nat) :=
  List.insertionSort tagLe tc

/-- `sorted(port_protocol_counts.items(), key=lambda x: (x[1], int(x[0][0])))`. -/
def sorted_protocols (pp : List ((String × Option String) × Nat)) :
    List ((String × Option String) × Nat) :=
  List.insertionSort ppLe pp

/-- How Python renders the protocol component in the f-string: a real
string as itself, `None` as `"None"`. -/
def optStr : Option String → String
  | some s => s
  | none => "None"

/-- The Tag Counts section: its two header lines then one `tag,count` row
per entry in sorted order. -/
def tag_section (tc : List (String × Nat)) : List String :=
  "Tag Counts:" :: "Tag,Count" ::
    (sorted_counts tc).map (fun p => p.1 ++ "," ++ toString p.2)

/-- The lines written for the port/protocol section header: the blank line
and the two header lines, written before the second sort runs. -/
def pp_header : List String :=
  ["", "Port/Protocol Combination Counts:", "Port,Protocol,Count"]

/-- The `port,protocol,count` rows in sorted order. -/
def pp_rows (pp : List ((String × Option String) × Nat)) : List String :=
  (sorted_protocols pp).map
    (fun e => e.1.1 ++ "," ++ optStr e.1.2 ++ "," ++ toString e.2)

/-- `write_output(tag_counts, port_protocol_counts, output_file)`: the
lines written to the output file, paired with `true` when the function
returns normally.  When some port key is not `int`-parseable the second
`sorted` call raises after the tag section and the port/protocol headers
have been written, so the partial file is returned with `false`. -/
def write_output (tc : List (String × Nat))
    (pp : List ((String × Option String) × Nat)) : List String × Bool :=
  if pp.all (fun e => (pyInt e.1.1).isSome) then
    (tag_section tc ++ pp_header ++ pp_rows pp, true)
  else
    (tag_section tc ++ pp_header, false)

/-- The body of the driver's `try` block: loader, processor, writer in
sequence; a failed write re-raises the `ValueError` from `int(...)`. -/
def run_pipeline (lookupC flowC : Option (List String)) :
    Except PyErr (List String) := do
  let lt ← load_lookup_table lookupC
  let cts ← process_flow_logs flowC lt
  let result := write_output cts.tag_counts cts.port_protocol_counts
  if result.2 then pure result.1 else .error .valueError

/-- The `except` clauses of `log_parser`: `FileNotFoundError`,
`ValueError` and the catch-all `except Exception` each log the error and
return normally. -/
def driver_catch : Except PyErr (List String) → Except PyErr Unit
  | .ok _ => .ok ()
  | .error .fileNotFound => .ok ()
  | .error .valueError => .ok ()
  | .error _ => .ok ()

/-- The driver `log_parser(lookup_file, flow_log_file, output_file)` seen
from its caller: `.ok ()` models a normal return, `.error e` would model a
propagated exception. -/
def log_parser_driver (lookupC flowC : Option (List String)) :
    Except PyErr Unit :=
  driver_catch (run_pipeline lookupC flowC)

/-- The file system: path to file contents. -/
abbrev FileSystem := String → Option (List String)

/-- What one run leaves in the output file: `none` when the file is never
opened (an earlier stage failed), otherwise the lines written — the full
report, or the partial one a failed write leaves behind. -/
def pipeline_output (lookupC flowC : Option (List String)) :
    Option (List String) :=
  match load_lookup_table lookupC with
  | .error _ => none
  | .ok lt =>
    match process_flow_logs flowC lt with
    | .error _ => none
    | .ok cts => some (write_output cts.tag_counts cts.port_protocol_counts).1

/-- The whole program on a file system: the module-level call
`log_parser(lookup_file='lookup_table.csv', flow_log_file='flow_log.log',
output_file='output.txt')`, observed through the output file it writes. -/
def log_parser_output (fs : FileSystem) : Option (List String) :=
  pipeline_output (fs "lookup_table.csv") (fs "flow_log.log")

/-- The tag stored for a key after the whole load: the tag of the last
accepted data row carrying that key (`none` when no accepted row does). -/
def lastTagFor (rows : List String) (k : String × String) : Option String :=
  match rows.reverse.find? (fun l => !(rowSkipB l) && rowKey l == k) with
  | some l => some (rowTag l)
  | none => none

/-- A well-formed flow-log line: 14 whitespace-separated fields. -/
def sampleLine : String :=
  "2 123456789012 eni-0a1b 10.0.1.1 10.0.2.2 49153 80 6 10 840 1620140661 1620140721 ACCEPT OK"

/-- A malformed flow-log line: 15 whitespace-separated fields. -/
def sampleLine15 : String :=
  "2 123456789012 eni-0a1b 10.0.1.1 10.0.2.2 49153 80 6 10 840 1620140661 1620140721 ACCEPT OK extra"

/-- A file system holding neither input file (but another file, so that it
differs from `fsB` as a function). -/
def fsA : FileSystem := fun p => if p = "notes.txt" then some ["x"] else none

/-- The empty file system. -/
def fsB : FileSystem := fun _ => none


/-! Helper lemmas about the dictionary operations and the two folds. -/

theorem getCount_bump_self {α : Type} [DecidableEq α]
    (m : List (α × Nat)) (k : α) : getCount (bump k m) k = getCount m k + 1 := by
  induction m with
  | nil => simp [bump, getCount]
  | cons p rest ih =>
    obtain ⟨k2, v⟩ := p
    by_cases h : k2 = k
    · simp [bump, getCount, h]
    · simp [bump, getCount, h, ih]

theorem getCount_bump_other {α : Type} [DecidableEq α]
    (m : List (α × Nat)) (k t : α) (h : t ≠ k) :
    getCount (bump k m) t = getCount m t := by
  induction m with
  | nil =>
    have hkt : ¬ k = t := fun hk => h (Eq.symm hk)
    simp only [bump, getCount, if_neg hkt]
  | cons p rest ih =>
    obtain ⟨k2, v⟩ := p
    by_cases h2 : k2 = k
    · have hnt : ¬ k2 = t := fun hk => h ((Eq.symm hk).trans h2)
      simp only [bump, if_pos h2, getCount, if_neg hnt]
    · by_cases h3 : k2 = t
      · simp only [bump, if_neg h2, getCount, if_pos h3]
      · simp only [bump, if_neg h2, getCount, if_neg h3, ih]

theorem assocFind_dinsert_self (m : LookupTable) (k : String × String)
    (v : String) : assocFind (dinsert k v m) k = some v := by
  induction m with
  | nil => simp [dinsert, assocFind]
  | cons p rest ih =>
    obtain ⟨k2, v2⟩ := p
    by_cases h : k2 = k
    · simp [dinsert, assocFind, h]
    · simp [dinsert, assocFind, h, ih]

theorem assocFind_dinsert_other (m : LookupTable) (k k2 : String × String)
    (v : String) (h : k2 ≠ k) :
    assocFind (dinsert k v m) k2 = assocFind m k2 := by
  induction m with
  | nil =>
    have hkk : ¬ k = k2 := fun hk => h (Eq.symm hk)
    simp only [dinsert, assocFind, if_neg hkk]
  | cons p rest ih =>
    obtain ⟨k3, v3⟩ := p
    by_cases h2 : k3 = k
    · have hnk : ¬ k = k2 := fun hk => h (Eq.symm hk)
      have hnk3 : ¬ k3 = k2 := fun hk => h (Eq.symm ((Eq.symm h2).trans hk))
      simp only [dinsert, if_pos h2, assocFind, if_neg hnk, if_neg hnk3]
    · by_cases h3 : k3 = k2
      · simp only [dinsert, if_neg h2, assocFind, if_pos h3]
      · simp only [dinsert, if_neg h2, assocFind, if_neg h3, ih]

theorem dinsert_length (m : LookupTable) (k : String × String) (v : String) :
    (dinsert k v m).length ≤ m.length + 1 := by
  induction m with
  | nil => simp [dinsert]
  | cons p rest ih =>
    obtain ⟨k2, v2⟩ := p
    by_cases h : k2 = k
    · simp [dinsert, h]
    · simp only [dinsert, if_neg h, List.length_cons]
      omega

theorem foldl_loadRow_length (rows : List String) :
    ∀ m : LookupTable, (rows.foldl loadRow m).length ≤
      m.length + (rows.filter (fun l => !(rowSkipB l))).length := by
  induction rows with
  | nil => intro m; simp
  | cons r rs ih =>
    intro m
    rw [List.foldl_cons]
    have h1 := ih (loadRow m r)
    by_cases h : rowSkipB r = true
    · have h2 : loadRow m r = m := by simp [loadRow, h]
      rw [h2]
      have h3 : (r :: rs).filter (fun l => !(rowSkipB l)) =
          rs.filter (fun l => !(rowSkipB l)) := by
        simp [List.filter_cons, h]
      rw [h3]
      exact ih m
    · have hb : rowSkipB r = false := by
        revert h; cases rowSkipB r <;> simp
      have h2 : (loadRow m r).length ≤ m.length + 1 := by
        simp only [loadRow, hb, Bool.false_eq_true, if_false]
        exact dinsert_length m _ _
      have h3 : (r :: rs).filter (fun l => !(rowSkipB l)) =
          r :: rs.filter (fun l => !(rowSkipB l)) := by
        simp [List.filter_cons, hb]
      rw [h3]
      simp only [List.length_cons]
      omega

theorem lastTagFor_cons (r : String) (rs : List String) (k : String × String) :
    lastTagFor (r :: rs) k =
      ((lastTagFor rs k).or
        (if (!(rowSkipB r) && rowKey r == k) = true then some (rowTag r) else none)) := by
  unfold lastTagFor
  rw [List.reverse_cons, List.find?_append]
  cases hfind : List.find? (fun l => !(rowSkipB l) && rowKey l == k) rs.reverse with
  | some l => rfl
  | none =>
    cases hp : (!(rowSkipB r) && rowKey r == k) with
    | true => simp [List.find?, hp]
    | false => simp [List.find?, hp]

theorem assocFind_foldl_loadRow (rows : List String) :
    ∀ (m : LookupTable) (k : String × String),
      assocFind (rows.foldl loadRow m) k =
        (lastTagFor rows k).or (assocFind m k) := by
  induction rows with
  | nil =>
    intro m k
    simp [lastTagFor, List.find?]
  | cons r rs ih =>
    intro m k
    rw [List.foldl_cons, ih (loadRow m r) k, lastTagFor_cons]
    cases hl : lastTagFor rs k with
    | some t => rfl
    | none =>
      by_cases hp : (!(rowSkipB r) && rowKey r == k) = true
      · have hskip : rowSkipB r = false := by
          revert hp; cases rowSkipB r <;> simp
        have hkey : rowKey r = k := by
          rw [Bool.and_eq_true, beq_iff_eq] at hp
          exact hp.2
        have hload : loadRow m r = dinsert (rowKey r) (rowTag r) m := by
          simp [loadRow, hskip]
        rw [if_pos hp, hload, hkey, assocFind_dinsert_self]
        rfl
      · rw [if_neg hp]
        by_cases hskip : rowSkipB r = true
        · have hload : loadRow m r = m := by simp [loadRow, hskip]
          rw [hload]
          rfl
        · have hsf : rowSkipB r = false := by
            revert hskip; cases rowSkipB r <;> simp
          have hkey : ¬ (rowKey r = k) := by
            intro hk
            apply hp
            rw [Bool.and_eq_true, beq_iff_eq]
            exact ⟨by rw [hsf]; rfl, hk⟩
          have hload : loadRow m r = dinsert (rowKey r) (rowTag r) m := by
            simp [loadRow, hsf]
          rw [hload, assocFind_dinsert_other m (rowKey r) k (rowTag r)
            (fun hk => hkey (Eq.symm hk))]
          rfl

theorem foldlM_processLine_ok (lt : LookupTable) (lines : List String) :
    ∀ st : Counts, (∀ l ∈ lines, (pySplit l).length ≤ 14) →
      ∃ st2, List.foldlM (processLine lt) st lines = .ok st2 := by
  induction lines with
  | nil => intro st _; exact ⟨st, rfl⟩
  | cons r rs ih =>
    intro st h
    have hrs : ∀ l ∈ rs, (pySplit l).length ≤ 14 :=
      fun l hl => h l (List.mem_cons_of_mem r hl)
    rw [List.foldlM_cons]
    by_cases h14 : (pySplit r).length < 14
    · have hstep : processLine lt st r = .ok st := by simp [processLine, h14]
      rw [hstep]
      exact ih st hrs
    · have he : (pySplit r).length = 14 := by
        have := h r (List.mem_cons_self r rs)
        omega
      have hstep : processLine lt st r =
          .ok ⟨bump (lineTag lt r) st.tag_counts,
               bump (lineKey r) st.port_protocol_counts⟩ := by
        simp [processLine, h14, he]
      rw [hstep]
      exact ih _ hrs

theorem foldlM_processLine_error (lt : LookupTable) (lines : List String) :
    ∀ st : Counts, (∃ l ∈ lines, 14 < (pySplit l).length) →
      List.foldlM (processLine lt) st lines = .error .valueError := by
  induction lines with
  | nil =>
    intro st h
    rcases h with ⟨l, hl, _⟩
    cases hl
  | cons r rs ih =>
    intro st h
    rw [List.foldlM_cons]
    by_cases hr : 14 < (pySplit r).length
    · have h1 : ¬ (pySplit r).length < 14 := by omega
      have h2 : ¬ (pySplit r).length = 14 := by omega
      have hstep : processLine lt st r = .error .valueError := by
        simp [processLine, h1, h2]
      rw [hstep]
      rfl
    · rcases h with ⟨l, hl, hlen⟩
      rcases List.mem_cons.mp hl with heq | hmem
      · rw [heq] at hlen
        exact absurd hlen hr
      · by_cases h14 : (pySplit r).length < 14
        · have hstep : processLine lt st r = .ok st := by simp [processLine, h14]
          rw [hstep]
          exact ih st ⟨l, hmem, hlen⟩
        · have he : (pySplit r).length = 14 := by omega
          have hstep : processLine lt st r =
              .ok ⟨bump (lineTag lt r) st.tag_counts,
                   bump (lineKey r) st.port_protocol_counts⟩ := by
            simp [processLine, h14, he]
          rw [hstep]
          exact ih _ ⟨l, hmem, hlen⟩

theorem rowSkipB_iff (line : String) :
    rowSkipB line = true ↔
      (csvRow line).length < 3 ∨
        (csvRow line).all (fun s => pyStrip s == "") = true := by
  unfold rowSkipB
  simp only [Bool.or_eq_true, beq_iff_eq, decide_eq_true_eq]
  constructor
  · rintro ((h | h) | h)
    · exact Or.inl (by simp [h])
    · exact Or.inl h
    · exact Or.inr h
  · rintro (h | h)
    · exact Or.inl (Or.inr h)
    · exact Or.inr h

theorem load_lookup_table_spec (c : Option (List String)) :
    (load_lookup_table c = .error .fileNotFound ↔ c = none) ∧
    (load_lookup_table c = .error .valueError ↔
      ∃ ls, c = some ls ∧ (ls = [] ∨ csvRow (ls.headD "") = [])) ∧
    ((∃ tbl, load_lookup_table c = .ok tbl) ↔
      ∃ ls, c = some ls ∧ ls ≠ [] ∧ csvRow (ls.headD "") ≠ []) := by
  rcases c with _ | ls
  · refine ⟨by simp [load_lookup_table], ?_, ?_⟩
    · constructor
      · intro h
        simp [load_lookup_table] at h
      · rintro ⟨ls, h, _⟩
        cases h
    · constructor
      · rintro ⟨tbl, h⟩
        simp [load_lookup_table] at h
      · rintro ⟨ls, h, _⟩
        cases h
  · rcases ls with _ | ⟨hdr, rows⟩
    · refine ⟨by simp [load_lookup_table], ?_, ?_⟩
      · constructor
        · intro _
          exact ⟨[], rfl, Or.inl rfl⟩
        · intro _
          simp [load_lookup_table]
      · constructor
        · rintro ⟨tbl, h⟩
          simp [load_lookup_table] at h
        · rintro ⟨ls2, h, hne, _⟩
          cases h
          exact absurd rfl hne
    · by_cases hh : csvRow hdr = []
      · have hl : load_lookup_table (some (hdr :: rows)) = .error .valueError := by
          simp [load_lookup_table, hh]
        refine ⟨by rw [hl]; simp, ?_, ?_⟩
        · constructor
          · intro _
            exact ⟨hdr :: rows, rfl, Or.inr (by simpa using hh)⟩
          · intro _
            exact hl
        · constructor
          · rintro ⟨tbl, h⟩
            rw [hl] at h
            cases h
          · rintro ⟨ls2, h, hne, hcsv⟩
            cases h
            simp only [List.headD_cons] at hcsv
            exact absurd hh hcsv
      · have hl : load_lookup_table (some (hdr :: rows)) = .ok (rows.foldl loadRow []) := by
          simp [load_lookup_table, hh]
        refine ⟨by rw [hl]; simp, ?_, ?_⟩
        · constructor
          · intro h
            rw [hl] at h
            cases h
          · rintro ⟨ls2, h, hd⟩
            cases h
            rcases hd with hd | hd
            · simp at hd
            · simp only [List.headD_cons] at hd
              exact absurd hd hh
        · constructor
          · intro _
            exact ⟨hdr :: rows, rfl, by simp, by simpa using hh⟩
          · intro _
            exact ⟨_, hl⟩

theorem process_flow_logs_spec (flowC : Option (List String)) (lt : LookupTable) :
    (process_flow_logs flowC lt = .error .fileNotFound ↔ flowC = none) ∧
    (process_flow_logs flowC lt = .error .valueError ↔
      ∃ ls, flowC = some ls ∧ ∃ l ∈ ls, 14 < (pySplit l).length) ∧
    ((∃ cts, process_flow_logs flowC lt = .ok cts) ↔
      ∃ ls, flowC = some ls ∧ ∀ l ∈ ls, (pySplit l).length ≤ 14) := by
  rcases flowC with _ | ls
  · refine ⟨by simp [process_flow_logs], ?_, ?_⟩
    · constructor
      · intro h
        simp [process_flow_logs] at h
      · rintro ⟨ls, h, _⟩
        cases h
    · constructor
      · rintro ⟨cts, h⟩
        simp [process_flow_logs] at h
      · rintro ⟨ls, h, _⟩
        cases h
  · have hpf : process_flow_logs (some ls) lt =
        List.foldlM (processLine lt) ⟨[], []⟩ ls := rfl
    by_cases hbad : ∃ l ∈ ls, 14 < (pySplit l).length
    · have herr := foldlM_processLine_error lt ls ⟨[], []⟩ hbad
      refine ⟨by rw [hpf, herr]; simp, ?_, ?_⟩
      · constructor
        · intro _
          exact ⟨ls, rfl, hbad⟩
        · intro _
          rw [hpf]
          exact herr
      · constructor
        · rintro ⟨cts, h⟩
          rw [hpf, herr] at h
          cases h
        · rintro ⟨ls2, h, hall⟩
          cases h
          rcases hbad with ⟨l, hm, hlen⟩
          have := hall l hm
          omega
    · have hgood : ∀ l ∈ ls, (pySplit l).length ≤ 14 := by
        intro l hm
        by_contra hc
        exact hbad ⟨l, hm, by omega⟩
      obtain ⟨st2, hok⟩ := foldlM_processLine_ok lt ls ⟨[], []⟩ hgood
      refine ⟨by rw [hpf, hok]; simp, ?_, ?_⟩
      · constructor
        · intro h
          rw [hpf, hok] at h
          cases h
        · rintro ⟨ls2, h, hb⟩
          cases h
          exact absurd hb hbad
      · constructor
        · intro _
          exact ⟨ls, rfl, hgood⟩
        · intro _
          refine ⟨st2, ?_⟩
          rw [hpf]
          exact hok

/-! Claim theorems, one per claim, with witnesses and counterexamples. -/

/-- Claim C1 (code-bug evidence): protocol resolution maps "6" to "tcp"
and "17" to "udp" and yields "unknown" for non-numeric input, but for a
numeric protocol number absent from the table ("999") the function falls
off its end and returns None — not the "unknown" the claim (and the
function's own docstring) promises. -/
theorem C1_resolution_bug :
    get_protocol_name "6" = some "tcp" ∧
    get_protocol_name "17" = some "udp" ∧
    get_protocol_name "abc" = some "unknown" ∧
    get_protocol_name "3.5" = some "unknown" ∧
    get_protocol_name "" = some "unknown" ∧
    get_protocol_name "999" = none ∧
    ¬ get_protocol_name "999" = some "unknown" := by decide

/-- Claim C2: a flow-log line with exactly 14 whitespace-separated fields
increments exactly the tag count of its tag (the lookup entry for
(destination port, resolved protocol name), defaulting to "Untagged") and
exactly the port/protocol count of its key, each by one, leaving every
other count unchanged; a line with fewer than 14 fields changes nothing
and raises nothing. -/
theorem C2_line_increments (lt : LookupTable) (st : Counts) (line : String) :
    ((pySplit line).length = 14 →
      processLine lt st line =
        .ok ⟨bump (lineTag lt line) st.tag_counts,
             bump (lineKey line) st.port_protocol_counts⟩ ∧
      getCount (bump (lineTag lt line) st.tag_counts) (lineTag lt line) =
        getCount st.tag_counts (lineTag lt line) + 1 ∧
      (∀ t, t ≠ lineTag lt line →
        getCount (bump (lineTag lt line) st.tag_counts) t =
          getCount st.tag_counts t) ∧
      getCount (bump (lineKey line) st.port_protocol_counts) (lineKey line) =
        getCount st.port_protocol_counts (lineKey line) + 1 ∧
      (∀ k, k ≠ lineKey line →
        getCount (bump (lineKey line) st.port_protocol_counts) k =
          getCount st.port_protocol_counts k)) ∧
    ((pySplit line).length < 14 → processLine lt st line = .ok st) := by
  constructor
  · intro h14
    have hnl : ¬ (pySplit line).length < 14 := by omega
    refine ⟨by simp [processLine, hnl, h14], ?_, ?_, ?_, ?_⟩
    · exact getCount_bump_self st.tag_counts (lineTag lt line)
    · intro t ht
      exact getCount_bump_other st.tag_counts (lineTag lt line) t ht
    · exact getCount_bump_self st.port_protocol_counts (lineKey line)
    · intro k hk
      exact getCount_bump_other st.port_protocol_counts (lineKey line) k hk
  · intro h
    simp [processLine, h]

/-- Witness for C2 at a concrete 14-field line over the empty table and
empty counts. -/
theorem C2_line_increments_w :
    processLine [] ⟨[], []⟩ sampleLine =
      .ok ⟨bump (lineTag [] sampleLine) [], bump (lineKey sampleLine) []⟩ :=
  ((C2_line_increments [] ⟨[], []⟩ sampleLine).1 (by decide)).1

/-- Claim C3 counterexample: the data row "80,," has three columns but
only one non-blank column, yet it is not skipped — it contributes the
entry (("80", ""), ""). -/
theorem C3_cex :
    ((csvRow "80,,").filter (fun s => pyStrip s != "")).length = 1 ∧
    loadRow [] "80,," = [(("80", ""), "")] ∧
    load_lookup_table (some ["dstport,protocol,tag", "80,,"]) =
      .ok [(("80", ""), "")] := by decide

/-- Claim C3 (amended): a data row is skipped exactly when it has fewer
than 3 columns or all of its columns are blank; a row with at least 3
columns and at least one non-blank column always stores an entry. -/
theorem C3_row_policy (m : LookupTable) (line : String) :
    ((csvRow line).length < 3 ∨
        (csvRow line).all (fun s => pyStrip s == "") = true →
      loadRow m line = m) ∧
    (3 ≤ (csvRow line).length →
      (csvRow line).all (fun s => pyStrip s == "") = false →
      loadRow m line = dinsert (rowKey line) (rowTag line) m) := by
  constructor
  · intro h
    have hs : rowSkipB line = true := (rowSkipB_iff line).mpr h
    simp [loadRow, hs]
  · intro h3 hall
    have hs : rowSkipB line = false := by
      cases hsk : rowSkipB line
      · rfl
      · rcases (rowSkipB_iff line).mp hsk with h | h
        · omega
        · rw [hall] at h
          cases h
    simp [loadRow, hs]

/-- Witness for C3 at a concrete accepted row. -/
theorem C3_row_policy_w :
    loadRow [] "443,tcp,https" =
      dinsert (rowKey "443,tcp,https") (rowTag "443,tcp,https") [] :=
  (C3_row_policy [] "443,tcp,https").2 (by decide) (by decide)

/-- Claim C4 counterexample: the flow-log file exists (one 15-field
line), yet `process_flow_logs` neither raises NotFound nor returns
normally — the 14-variable unpacking raises ValueError. -/
theorem C4_cex :
    process_flow_logs (some [sampleLine15]) [] = .error .valueError ∧
    some [sampleLine15] ≠ (none : Option (List String)) := by
  constructor
  · decide
  · intro h
    cases h

/-- Claim C4 (amended): `load_lookup_table` fails with NotFound exactly
when the lookup file does not exist, with ValueError exactly when the
file exists but has no rows or an empty header row, and returns normally
otherwise; `process_flow_logs` fails with NotFound exactly when the
flow-log file does not exist, fails with the unpacking ValueError exactly
when the file exists and some line has more than 14 fields, and returns
normally exactly when the file exists and every line has at most 14
fields. -/
theorem C4_failure_modes (c flowC : Option (List String)) (lt : LookupTable) :
    (load_lookup_table c = .error .fileNotFound ↔ c = none) ∧
    (load_lookup_table c = .error .valueError ↔
      ∃ ls, c = some ls ∧ (ls = [] ∨ csvRow (ls.headD "") = [])) ∧
    ((∃ tbl, load_lookup_table c = .ok tbl) ↔
      ∃ ls, c = some ls ∧ ls ≠ [] ∧ csvRow (ls.headD "") ≠ []) ∧
    (process_flow_logs flowC lt = .error .fileNotFound ↔ flowC = none) ∧
    (process_flow_logs flowC lt = .error .valueError ↔
      ∃ ls, flowC = some ls ∧ ∃ l ∈ ls, 14 < (pySplit l).length) ∧
    ((∃ cts, process_flow_logs flowC lt = .ok cts) ↔
      ∃ ls, flowC = some ls ∧ ∀ l ∈ ls, (pySplit l).length ≤ 14) :=
  ⟨(load_lookup_table_spec c).1, (load_lookup_table_spec c).2.1,
   (load_lookup_table_spec c).2.2, (process_flow_logs_spec flowC lt).1,
   (process_flow_logs_spec flowC lt).2.1, (process_flow_logs_spec flowC lt).2.2⟩

/-- Witness for C4 at concrete inputs: both loaders report NotFound on a
missing file, and a well-formed pair returns normally. -/
theorem C4_failure_modes_w :
    load_lookup_table none = .error .fileNotFound ∧
    process_flow_logs none [] = .error .fileNotFound ∧
    (∃ tbl, load_lookup_table (some ["dstport,protocol,tag", "80,tcp,web"]) = .ok tbl) :=
  ⟨(C4_failure_modes none none []).1.mpr rfl,
   (C4_failure_modes none none []).2.2.2.1.mpr rfl,
   (C4_failure_modes (some ["dstport,protocol,tag", "80,tcp,web"]) none []).2.2.1.mpr
     ⟨["dstport,protocol,tag", "80,tcp,web"], rfl, by decide, by decide⟩⟩

/-- Claim C9: a flow-log line with more than 14 whitespace-separated
fields makes `process_flow_logs` raise at the 14-variable unpacking, so
the whole run aborts and no count maps are returned. -/
theorem C9_overlong_line (lt : LookupTable) (lines : List String)
    (h : ∃ l ∈ lines, 14 < (pySplit l).length) :
    process_flow_logs (some lines) lt = .error .valueError :=
  foldlM_processLine_error lt lines ⟨[], []⟩ h

/-- Witness for C9 at a concrete 15-field line. -/
theorem C9_overlong_line_w :
    process_flow_logs (some ["a b c d e f g h i j k l m n o"]) [] =
      .error .valueError :=
  C9_overlong_line [] ["a b c d e f g h i j k l m n o"]
    ⟨"a b c d e f g h i j k l m n o", List.Mem.head _, by decide⟩

/-- Claim C5 counterexample: a CSV whose only data row is "80,," has zero
valid rows in the claim's sense (3 or more non-blank columns), yet the
loaded map has size 1, violating the claimed bound size ≤ N. -/
theorem C5_cex :
    load_lookup_table (some ["dstport,protocol,tag", "80,,"]) =
      .ok [(("80", ""), "")] ∧
    (["80,,"].filter
        (fun l => 3 ≤ ((csvRow l).filter (fun s => pyStrip s != "")).length)).length
      = 0 ∧
    ¬ ([(("80", ""), "")] : LookupTable).length ≤ 0 := by decide

/-- Claim C5 (amended): when the load succeeds, the map has at most as
many entries as there are accepted data rows (at least 3 columns, not all
blank), and the value stored under a key is the tag of the last accepted
row carrying that key — last write wins, silently. -/
theorem C5_size_and_last_write (hdr : String) (rows : List String)
    (tbl : LookupTable)
    (hload : load_lookup_table (some (hdr :: rows)) = .ok tbl) :
    tbl.length ≤ (rows.filter (fun l => !(rowSkipB l))).length ∧
    ∀ k, assocFind tbl k = lastTagFor rows k := by
  have htbl : tbl = rows.foldl loadRow [] := by
    by_cases hh : csvRow hdr = []
    · simp [load_lookup_table, hh] at hload
    · simp [load_lookup_table, hh] at hload
      exact hload.symm
  subst htbl
  constructor
  · have h := foldl_loadRow_length rows []
    simpa using h
  · intro k
    rw [assocFind_foldl_loadRow rows [] k]
    cases lastTagFor rows k <;> rfl

/-- Witness for C5: two accepted rows with the same key (25, tcp); the
later row's tag is stored and the size bound holds. -/
theorem C5_size_and_last_write_w :
    ([(("25", "tcp"), "mail")] : LookupTable).length ≤
      (["25,tcp,smtp", "25,TCP,mail"].filter (fun l => !(rowSkipB l))).length ∧
    assocFind [(("25", "tcp"), "mail")] ("25", "tcp") =
      lastTagFor ["25,tcp,smtp", "25,TCP,mail"] ("25", "tcp") :=
  ⟨(C5_size_and_last_write "dstport,protocol,tag" ["25,tcp,smtp", "25,TCP,mail"]
      [(("25", "tcp"), "mail")] (by decide)).1,
   (C5_size_and_last_write "dstport,protocol,tag" ["25,tcp,smtp", "25,TCP,mail"]
      [(("25", "tcp"), "mail")] (by decide)).2 ("25", "tcp")⟩

/-- Claim C6: whenever `write_output` returns normally, its output file is
the tag section followed by the port/protocol section, with the tag rows
in non-decreasing order of count and the port/protocol rows in
non-decreasing lexicographic order of (count, numeric port). -/
theorem C6_sorted_sections (tc : List (String × Nat))
    (pp : List ((String × Option String) × Nat))
    (h : (write_output tc pp).2 = true) :
    (write_output tc pp).1 = tag_section tc ++ pp_header ++ pp_rows pp ∧
    List.Sorted tagLe (sorted_counts tc) ∧
    List.Sorted ppLe (sorted_protocols pp) := by
  cases hc : pp.all (fun e => (pyInt e.1.1).isSome) with
  | false =>
    rw [write_output] at h
    rw [hc] at h
    simp at h
  | true =>
    refine ⟨?_, List.sorted_insertionSort tagLe tc, List.sorted_insertionSort ppLe pp⟩
    simp [write_output, hc]

/-- Witness for C6 at concrete count maps. -/
theorem C6_sorted_sections_w :
    (write_output [("web", 2), ("Untagged", 1)]
        [(("80", some "tcp"), 2), (("25", some "udp"), 1)]).1 =
      tag_section [("web", 2), ("Untagged", 1)] ++ pp_header ++
        pp_rows [(("80", some "tcp"), 2), (("25", some "udp"), 1)] ∧
    List.Sorted tagLe (sorted_counts [("web", 2), ("Untagged", 1)]) ∧
    List.Sorted ppLe
      (sorted_protocols [(("80", some "tcp"), 2), (("25", some "udp"), 1)]) :=
  C6_sorted_sections [("web", 2), ("Untagged", 1)]
    [(("80", some "tcp"), 2), (("25", some "udp"), 1)] (by decide)

/-- Claim C7: the driver catches every failure kind a stage can raise —
FileNotFoundError, ValueError, and anything else through the generic
Exception handler — so `log_parser` always returns normally. -/
theorem C7_driver_catches_all :
    (∀ r : Except PyErr (List String), driver_catch r = .ok ()) ∧
    (∀ lookupC flowC : Option (List String),
      log_parser_driver lookupC flowC = .ok ()) := by
  constructor
  · intro r
    rcases r with e | v
    · cases e <;> rfl
    · rfl
  · intro lookupC flowC
    unfold log_parser_driver
    cases hc : run_pipeline lookupC flowC with
    | error e => cases e <;> rfl
    | ok v => rfl

/-- Witness for C7 at concrete inputs (both files missing). -/
theorem C7_driver_catches_all_w : log_parser_driver none none = .ok () :=
  C7_driver_catches_all.2 none none

/-- Claim C8: the output-file contents depend only on the contents of the
two fixed input paths, so two runs over byte-identical lookup-table and
flow-log files write byte-identical output files. -/
theorem C8_deterministic (fs1 fs2 : FileSystem)
    (h1 : fs1 "lookup_table.csv" = fs2 "lookup_table.csv")
    (h2 : fs1 "flow_log.log" = fs2 "flow_log.log") :
    log_parser_output fs1 = log_parser_output fs2 := by
  unfold log_parser_output
  rw [h1, h2]

/-- Witness for C8: two different file systems that agree on the two
input paths give identical output. -/
theorem C8_deterministic_w : log_parser_output fsA = log_parser_output fsB :=
  C8_deterministic fsA fsB (by decide) (by decide)

/-- Claim C10: `write_output` returns normally exactly when every port
key parses as an integer; when some port key does not, the second sort
raises after the tag section and the port/protocol headers have been
written, leaving exactly that partial output file. -/
theorem C10_port_sort_failure (tc : List (String × Nat))
    (pp : List ((String × Option String) × Nat)) :
    ((write_output tc pp).2 = true ↔ ∀ e ∈ pp, (pyInt e.1.1).isSome = true) ∧
    ((∃ e ∈ pp, pyInt e.1.1 = none) →
      (write_output tc pp).2 = false ∧
      (write_output tc pp).1 = tag_section tc ++ pp_header) := by
  constructor
  · cases hc : pp.all (fun e => (pyInt e.1.1).isSome) with
    | true =>
      constructor
      · intro _
        exact List.all_eq_true.mp hc
      · intro _
        simp [write_output, hc]
    | false =>
      have h2 : (write_output tc pp).2 = false := by simp [write_output, hc]
      constructor
      · intro h
        rw [h2] at h
        cases h
      · intro hall
        have := List.all_eq_true.mpr hall
        rw [hc] at this
        cases this
  · rintro ⟨e, hm, hnone⟩
    have hc : pp.all (fun e2 => (pyInt e2.1.1).isSome) = false := by
      cases hall : pp.all (fun e2 => (pyInt e2.1.1).isSome)
      · rfl
      · have h3 := List.all_eq_true.mp hall e hm
        rw [hnone] at h3
        simp at h3
    exact ⟨by simp [write_output, hc], by simp [write_output, hc]⟩

/-- Witness for C10 at a concrete non-numeric port key. -/
theorem C10_port_sort_failure_w :
    (write_output [("Untagged", 1)] [(("eph", some "tcp"), 1)]).2 = false ∧
    (write_output [("Untagged", 1)] [(("eph", some "tcp"), 1)]).1 =
      tag_section [("Untagged", 1)] ++ pp_header :=
  (C10_port_sort_failure [("Untagged", 1)] [(("eph", some "tcp"), 1)]).2
    ⟨(("eph", some "tcp"), 1), List.Mem.head _, by decide⟩
